import Mathlib

/-!
Verification of the core logic of the `tylmus_backend` Connections-style
daily word-puzzle server, shallowly embedded from:

* `src/main.py`      — the served endpoints: daily-game construction
  (`create_daily_game`, `get_categories_from_db`,
  `generate_fallback_categories`), the progress cookie codec
  (`get_user_progress`, `set_user_progress`) and the guess evaluator
  (the `check_selection` endpoint body).
* `src/game_logic.py` — the `ConnectionsGame` variant evaluator and its
  `generate_game` puzzle builder.
* `src/daily_game.py` — the `DailyGameGenerator` variant with its
  MD5-seeded deterministic category selection and fallback list.
* `src/database.py` / `src/models.py` — the data access layer and the
  `Category` dataclass.

Python's process-global `random` module is modelled as an explicit
generator state (a natural number) threaded through every function that
the source code lets touch it.  `random.seed`, `random.sample` and
`random.shuffle` are modelled as pure functions of that state: `seed`
replaces the state by a deterministic hash of its argument, and
`sample`/`shuffle` draw successive values from a deterministic step
function.  The concrete step function is a linear congruential update;
the theorems below depend only on it being a deterministic function of
the state, which is exactly the property the source relies on.
-/

/-- Model of one step of the pseudo-random generator backing Python's
global `random` module: a 64-bit linear congruential update.  Only
determinism of the step matters for the source's behaviour. -/
def lcgNext (st : Nat) : Nat :=
  (st * 6364136223846793005 + 1442695040888963407) % (2 ^ 64)

/-- Model of `random._randbelow(n)`: advances the generator state and
returns a value below `n` (0 when `n = 0`, a case the source never
reaches). -/
def randbelow (n st : Nat) : Nat × Nat :=
  (if n = 0 then 0 else lcgNext st % n, lcgNext st)

/-- Model of `random.seed(s)` for a string argument: the generator state
becomes a deterministic hash of the string, erasing the previous
state. -/
def seedOfString (s : String) : Nat :=
  s.data.foldl (fun h c => (h * 31 + c.toNat) % (2 ^ 64)) 5381

/-- Model of `int(hashlib.md5(date_key.encode()).hexdigest()[:8], 16)`
from `daily_game.py`: a deterministic 32-bit hash of the date string. -/
def seedMd5 (s : String) : Nat :=
  s.data.foldl (fun h c => (h * 1000003 + c.toNat + 7) % (2 ^ 32)) 0

/-- Model of `random.sample(xs, k)`: repeatedly draws an index below the
number of remaining elements, removes the element at that index and
emits it, threading the generator state. -/
def sample : List α → Nat → Nat → List α × Nat
  | _, 0, st => ([], st)
  | xs, k + 1, st =>
    if h : xs.length = 0 then ([], st)
    else
      let p := randbelow xs.length st
      let j : Fin xs.length := ⟨p.1 % xs.length, Nat.mod_lt _ (Nat.pos_of_ne_zero h)⟩
      let rest := sample (xs.eraseIdx j.1) k p.2
      (xs.get j :: rest.1, rest.2)

/-- Model of `random.shuffle(xs)` (which permutes in place): drawing all
elements of `xs` without replacement yields the shuffled copy together
with the advanced generator state. -/
def shuffle (xs : List α) (st : Nat) : List α × Nat :=
  sample xs xs.length st

/-- `models.py`: the `Category` dataclass. -/
structure Category where
  name : String
  words : List String
deriving DecidableEq, Repr

/-- A row of `database.get_categories()`: `{category_id, category_name}`. -/
structure DbCat where
  category_id : Nat
  category_name : String
deriving DecidableEq, Repr

/-- The backing word store of `database.py`: the category rows together
with the `get_words_by_category` lookup.  A failed fetch (an exception
raised by the database layer) is modelled as `none` at use sites. -/
structure Db where
  cats : List DbCat
  words_by_category : Nat → List String

/-- `main.generate_fallback_categories`: the hardcoded categories used
when the database fails or yields too few categories. -/
def generate_fallback_categories : List Category :=
  [⟨"Фрукты", ["Яблоко", "Апельсин", "Банан", "Виноград"]⟩,
   ⟨"Транспорт", ["Машина", "Автобус", "Поезд", "Велосипед"]⟩,
   ⟨"Цвета", ["Красный", "Синий", "Зеленый", "Желтый"]⟩,
   ⟨"Животные", ["Собака", "Кошка", "Птица", "Рыба"]⟩]

/-- The loop body of `main.get_categories_from_db` applied to a fetched
store: keep each category with at least 4 words, truncated to its first
4 words, in row order. -/
def filteredCats (db : Db) : List Category :=
  db.cats.filterMap fun c =>
    let ws := db.words_by_category c.category_id
    if 4 ≤ ws.length then some ⟨c.category_name, ws.take 4⟩ else none

/-- `main.get_categories_from_db`: on a database exception (`none`) the
`except` branch substitutes the fallback categories. -/
def get_categories_from_db : Option Db → List Category
  | none => generate_fallback_categories
  | some db => filteredCats db

/-- The category pool actually sampled by `main.create_daily_game`:
the fetched categories, replaced by the fallback set when fewer than 4
were loaded. -/
def dailyCategoryPool (db? : Option Db) : List Category :=
  let all_categories := get_categories_from_db db?
  if all_categories.length < 4 then generate_fallback_categories else all_categories

/-- The daily game record built by `main.create_daily_game`. -/
structure GameState where
  categories : List Category
  words : List String
  game_date : String
deriving DecidableEq, Repr

/-- `main.create_daily_game`: seeds the global generator with today's
UTC date string (erasing the ambient state `_rng`), samples 4
categories, concatenates their words and shuffles them with the same
seeded generator. -/
def create_daily_game (today_str : String) (db? : Option Db) (_rng : Nat) : GameState :=
  let all_categories := dailyCategoryPool db?
  let sampled := sample all_categories 4 (seedOfString today_str)
  let all_words := (sampled.1.map Category.words).flatten
  { categories := sampled.1, words := (shuffle all_words sampled.2).1, game_date := today_str }

/-- `daily_game.DailyGameGenerator._get_fallback_categories`. -/
def fallback_categories_daily : List Category :=
  [⟨"Фрукты", ["Яблоко", "Банан", "Апельсин", "Виноград"]⟩,
   ⟨"Животные", ["Кошка", "Собака", "Лошадь", "Корова"]⟩,
   ⟨"Цвета", ["Красный", "Синий", "Зеленый", "Желтый"]⟩,
   ⟨"Города", ["Москва", "Париж", "Лондон", "Токио"]⟩]

/-- `daily_game.DailyGameGenerator._generate_deterministic_categories`:
seeds the generator from the MD5 hash of the date key, then fetches the
category rows — that fetch has no exception handler in `daily_game.py`,
so a failed fetch (`none`) propagates as an error.  With at least 4
rows it samples 4, keeps those with at least 4 words (truncated to 4),
and falls back to the hardcoded list unless exactly 4 survive.  Returns
the categories together with the generator state left behind. -/
def generate_deterministic_categories (date_key : String) (db? : Option Db) :
    Except String (List Category × Nat) :=
  let seeded := seedMd5 date_key
  match db? with
  | none => Except.error "database error"
  | some db =>
    if 4 ≤ db.cats.length then
      let sampled := sample db.cats 4 seeded
      let cats := sampled.1.filterMap fun c =>
        let ws := db.words_by_category c.category_id
        if 4 ≤ ws.length then some (⟨c.category_name, ws.take 4⟩ : Category) else none
      if cats.length = 4 then Except.ok (cats, sampled.2)
      else Except.ok (fallback_categories_daily, sampled.2)
    else Except.ok (fallback_categories_daily, seeded)

/-- The mutable per-process cache of `daily_game.DailyGameGenerator`
(`_current_categories`, `_current_date`). -/
structure GenCache where
  cur_cats : Option (List Category)
  cur_date : Option String
deriving DecidableEq, Repr

/-- `daily_game.DailyGameGenerator.get_daily_categories`: returns the
cached categories when the cache is truthy (non-`None`, non-empty) and
stamped with today's key — leaving the global generator untouched —
and otherwise regenerates, caching the result. -/
def get_daily_categories (today_key : String) (db? : Option Db) (cache : GenCache)
    (rng : Nat) : Except String (List Category × GenCache × Nat) :=
  match cache.cur_cats with
  | some cs =>
    if !cs.isEmpty && cache.cur_date == some today_key then
      Except.ok (cs, cache, rng)
    else
      match generate_deterministic_categories today_key db? with
      | Except.error e => Except.error e
      | Except.ok (cs', rng') => Except.ok (cs', ⟨some cs', some today_key⟩, rng')
  | none =>
    match generate_deterministic_categories today_key db? with
    | Except.error e => Except.error e
    | Except.ok (cs', rng') => Except.ok (cs', ⟨some cs', some today_key⟩, rng')

/-- `game_logic.ConnectionsGame.generate_game`: takes the daily
categories (cached across calls), concatenates their words and shuffles
a copy with the global generator — which is only reseeded when the
cache misses. -/
def generate_game (today_key : String) (db? : Option Db) (cache : GenCache) (rng : Nat) :
    Except String ((List String × List Category) × GenCache × Nat) :=
  match get_daily_categories today_key db? cache rng with
  | Except.error e => Except.error e
  | Except.ok (cats, cache', rng') =>
    let all_words := (cats.map Category.words).flatten
    let shuffled := shuffle all_words rng'
    Except.ok ((shuffled.1, cats), cache', shuffled.2)

/-- Result dictionary shape of `game_logic.ConnectionsGame.check_selection`. -/
inductive GLResult where
  | invalid (message : String)
  | valid (category_name : String) (matched_words : List String)
deriving DecidableEq, Repr

/-- `game_logic.ConnectionsGame.check_selection`: rejects a selection
that is not exactly 4 words, otherwise returns the first category whose
word set equals the selection's word set, or a no-match message. -/
def ConnectionsGame_check_selection (selected_words : List String)
    (categories : List Category) : GLResult :=
  if selected_words.length ≠ 4 then
    GLResult.invalid "Выберите ровно 4 слова"
  else
    match categories.find? (fun c => decide (selected_words.toFinset = c.words.toFinset)) with
    | some category => GLResult.valid category.name category.words
    | none => GLResult.invalid "Эти слова не образуют категорию"

/-- One stored entry of the `found_categories` list in the progress
cookie: the category name and the words as submitted. -/
structure FoundCat where
  name : String
  words : List String
deriving DecidableEq, Repr

/-- Response shape of the `main.check_selection` endpoint. -/
inductive MainResult where
  | valid (category_name : String) (remaining : Int) (game_complete : Bool)
  | invalid (message : String) (mistakes : Nat)
deriving DecidableEq, Repr

/-- The core of the `main.check_selection` endpoint, after the day
rollover has been applied to the incoming progress: scans the puzzle
categories for one whose word set equals the selection's word set
(no length validation happens on this path); on a match it appends
`{name, words: selected_words}` unless the name is already present and
answers `valid`; otherwise it increments `mistakes` and answers
`invalid`.  Returns the response together with the updated
`found_categories` and `mistakes` that are re-encoded into the
cookie. -/
def check_selection (categories : List Category) (found_categories : List FoundCat)
    (mistakes : Nat) (selected_words : List String) :
    MainResult × List FoundCat × Nat :=
  match categories.find? (fun c => decide (selected_words.toFinset = c.words.toFinset)) with
  | some category =>
    let category_already_found := found_categories.any (fun f => f.name == category.name)
    let found' :=
      if category_already_found then found_categories
      else found_categories ++ [⟨category.name, selected_words⟩]
    let remaining : Int := (categories.length : Int) - (found'.length : Int)
    (MainResult.valid category.name remaining (decide (remaining = 0)), found', mistakes)
  | none =>
    (MainResult.invalid "Эти слова не образуют категорию" (mistakes + 1),
      found_categories, mistakes + 1)

/-- JSON values, as produced by `json.loads` on the progress cookie. -/
inductive Json where
  | null
  | bool (b : Bool)
  | num (n : Int)
  | str (s : String)
  | arr (elems : List Json)
  | obj (fields : List (String × Json))

/-- The empty-progress dictionary returned by `main.get_user_progress`
when no cookie is present or parsing fails. -/
def default_progress : List (String × Json) :=
  [("found_categories", Json.arr []), ("game_date", Json.null), ("mistakes", Json.num 0)]

/-- Python's `key in dict` test on the parsed progress dictionary. -/
def dictContains (fields : List (String × Json)) (k : String) : Bool :=
  fields.any (fun f => f.1 == k)

/-- Whether Python's `len()` accepts a value of this JSON shape:
strings, arrays and objects are sized; numbers, booleans and `None`
make `len()` raise `TypeError`. -/
def pyHasLen : Json → Bool
  | Json.str _ => true
  | Json.arr _ => true
  | Json.obj _ => true
  | _ => false

/-- `main.get_user_progress`.  The input models the cookie lookup and
`json.loads`: `none` is an absent cookie, `some none` a present cookie
on which `json.loads` raises `JSONDecodeError` (caught, yielding the
default), and `some (some j)` a cookie parsing to the JSON value `j`.
A parsed non-dictionary value hits `progress_data.get(...)` in the
logging line, raising `AttributeError`; a parsed dictionary whose
`found_categories` value (defaulting to `[]` when absent) is not sized
makes the `len(progress_data.get('found_categories', []))` call in that
same line raise `TypeError` — neither is caught by the
`except (json.JSONDecodeError, KeyError)` clause.  Otherwise the
dictionary flows through unchanged apart from `mistakes` being set to 0
when absent. -/
def get_user_progress : Option (Option Json) → Except String (List (String × Json))
  | none => Except.ok default_progress
  | some none => Except.ok default_progress
  | some (some (Json.obj fields)) =>
    if pyHasLen ((fields.lookup "found_categories").getD (Json.arr [])) then
      if dictContains fields "mistakes" then Except.ok fields
      else Except.ok (fields ++ [("mistakes", Json.num 0)])
    else Except.error "TypeError"
  | some (some _) => Except.error "AttributeError"

/-- JSON encoding of one found category, as written by
`main.set_user_progress` via `json.dumps`. -/
def jsonOfFound (f : FoundCat) : Json :=
  Json.obj [("name", Json.str f.name), ("words", Json.arr (f.words.map Json.str))]

/-- JSON encoding of the `game_date` value (`None` or a date string). -/
def jsonOfDate : Option String → Json
  | none => Json.null
  | some d => Json.str d

/-- The `progress_data` dictionary assembled by `main.set_user_progress`
before `json.dumps`. -/
def progress_fields (found_categories : List FoundCat) (game_date : Option String)
    (mistakes : Int) : List (String × Json) :=
  [("found_categories", Json.arr (found_categories.map jsonOfFound)),
   ("game_date", jsonOfDate game_date),
   ("mistakes", Json.num mistakes)]

/-- `main.set_user_progress` as a token producer: the JSON value stored
in the `user_progress` cookie. -/
def set_user_progress (found_categories : List FoundCat) (game_date : Option String)
    (mistakes : Int) : Json :=
  Json.obj (progress_fields found_categories game_date mistakes)

/-- Reads back a list of strings from its JSON encoding. -/
def strListOfJson : List Json → Option (List String)
  | [] => some []
  | Json.str s :: rest => (strListOfJson rest).map (s :: ·)
  | _ => none

/-- Reads back one found category from its JSON encoding. -/
def foundOfJson : Json → Option FoundCat
  | Json.obj [("name", Json.str n), ("words", Json.arr ws)] =>
    (strListOfJson ws).map (fun l => ⟨n, l⟩)
  | _ => none

/-- Reads back the `found_categories` list from its JSON encoding. -/
def foundListOfJson : List Json → Option (List FoundCat)
  | [] => some []
  | j :: rest =>
    match foundOfJson j, foundListOfJson rest with
    | some f, some fs => some (f :: fs)
    | _, _ => none

/-- Reads back the `game_date` value from its JSON encoding. -/
def dateOfJson : Json → Option (Option String)
  | Json.null => some none
  | Json.str s => some (some s)
  | _ => none

/-- Lowercases a string, for stating case-insensitive comparisons. -/
def lowerStr (s : String) : String := ⟨s.data.map Char.toLower⟩

/-- A store whose fetch succeeds but returns no category rows. -/
def dbEmpty : Db := ⟨[], fun _ => []⟩

/-- First invocation of `generate_game` on 2024-01-15 with a fresh
cache and generator state 0. -/
def glRun1 := generate_game "2024-01-15" (some dbEmpty) ⟨none, none⟩ 0

/-- The cache and generator state left behind by the first invocation. -/
def glState1 : GenCache × Nat :=
  match glRun1 with
  | Except.ok r => r.2
  | Except.error _ => (⟨none, none⟩, 0)

/-- Second invocation of `generate_game` on the same day against the
unchanged pool, continuing from the process state the first one left. -/
def glRun2 := generate_game "2024-01-15" (some dbEmpty) glState1.1 glState1.2

/-- The shuffled word list of a `generate_game` invocation. -/
def wordsOfRun : Except String ((List String × List Category) × GenCache × Nat) → List String
  | Except.ok r => r.1.1
  | Except.error _ => []

/-- A store with 4 categories of 4 words each in which categories `A`
and `B` share the word `w`. -/
def overlapDb : Db :=
  { cats := [⟨1, "A"⟩, ⟨2, "B"⟩, ⟨3, "C"⟩, ⟨4, "D"⟩],
    words_by_category := fun i =>
      if i = 1 then ["w", "a2", "a3", "a4"]
      else if i = 2 then ["w", "b2", "b3", "b4"]
      else if i = 3 then ["c1", "c2", "c3", "c4"]
      else if i = 4 then ["d1", "d2", "d3", "d4"]
      else [] }

/-- A concrete word-disjoint puzzle used to exercise the evaluator. -/
def englishCats : List Category :=
  [⟨"Fruits", ["Apple", "Banana", "Orange", "Grape"]⟩,
   ⟨"Pets", ["Dog", "Cat", "Bird", "Fish"]⟩,
   ⟨"Colors", ["Red", "Blue", "Green", "Yellow"]⟩,
   ⟨"Cities", ["London", "Paris", "Tokyo", "Moscow"]⟩]
/-- A store with 4 category rows each having only 3 words: no category
survives the at-least-4-words filter. -/
def thinDb : Db :=
  ⟨[⟨1, "A"⟩, ⟨2, "B"⟩, ⟨3, "C"⟩, ⟨4, "D"⟩], fun _ => ["x", "y", "z"]⟩

theorem cons_get_eraseIdx_perm :
    ∀ (xs : List α) (i : Fin xs.length), (xs.get i :: xs.eraseIdx i.1).Perm xs := by
  intro xs
  induction xs with
  | nil => intro i; exact absurd i.2 (by simp)
  | cons a xs ih =>
    intro i
    match i with
    | ⟨0, _⟩ => simp [List.eraseIdx]
    | ⟨j + 1, hj⟩ =>
      have hj' : j < xs.length := by simpa using hj
      have := ih ⟨j, hj'⟩
      have hstep : ((a :: xs).get ⟨j + 1, hj⟩ :: (a :: xs).eraseIdx (j + 1))
          = xs.get ⟨j, hj'⟩ :: a :: xs.eraseIdx j := by simp [List.eraseIdx]
      rw [hstep]
      exact (List.Perm.swap _ _ _).trans ((this).cons a)

theorem sample_subperm :
    ∀ (k : Nat) (xs : List α) (st : Nat), (sample xs k st).1.Subperm xs := by
  intro k
  induction k with
  | zero => intro xs st; simp [sample]
  | succ k ih =>
    intro xs st
    by_cases h : xs.length = 0
    · simp [sample, h]
    · simp only [sample, dif_neg h]
      set j : Fin xs.length :=
        ⟨(randbelow xs.length st).1 % xs.length, Nat.mod_lt _ (Nat.pos_of_ne_zero h)⟩ with hj
      have h1 : (sample (xs.eraseIdx j.1) k (randbelow xs.length st).2).1.Subperm
          (xs.eraseIdx j.1) := ih _ _
      have h2 : (xs.get j :: (sample (xs.eraseIdx j.1) k (randbelow xs.length st).2).1).Subperm
          (xs.get j :: xs.eraseIdx j.1) := (List.subperm_cons _).mpr h1
      exact h2.trans (cons_get_eraseIdx_perm xs j).subperm

theorem sample_perm :
    ∀ (k : Nat) (xs : List α) (st : Nat), xs.length = k → (sample xs k st).1.Perm xs := by
  intro k
  induction k with
  | zero =>
    intro xs st hlen
    have : xs = [] := List.length_eq_zero.mp hlen
    simp [sample, this]
  | succ k ih =>
    intro xs st hlen
    have h : ¬ xs.length = 0 := by omega
    simp only [sample, dif_neg h]
    set j : Fin xs.length :=
      ⟨(randbelow xs.length st).1 % xs.length, Nat.mod_lt _ (Nat.pos_of_ne_zero h)⟩ with hj
    have hlen' : (xs.eraseIdx j.1).length = k := by
      rw [List.length_eraseIdx]
      simp only [j.2, if_pos]
      omega
    have h1 : (sample (xs.eraseIdx j.1) k (randbelow xs.length st).2).1.Perm
        (xs.eraseIdx j.1) := ih _ _ hlen'
    exact (h1.cons (xs.get j)).trans (cons_get_eraseIdx_perm xs j)

theorem sample_length :
    ∀ (k : Nat) (xs : List α) (st : Nat), (sample xs k st).1.length = min k xs.length := by
  intro k
  induction k with
  | zero => intro xs st; simp [sample]
  | succ k ih =>
    intro xs st
    by_cases h : xs.length = 0
    · simp [sample, h]
    · simp only [sample, dif_neg h, List.length_cons]
      rw [ih]
      rw [List.length_eraseIdx]
      have hj : (randbelow xs.length st).1 % xs.length < xs.length :=
        Nat.mod_lt _ (Nat.pos_of_ne_zero h)
      simp only [hj, if_pos]
      omega

theorem shuffle_perm (xs : List α) (st : Nat) : (shuffle xs st).1.Perm xs :=
  sample_perm _ _ _ rfl

/-- C1 (amended): the endpoint builder `main.create_daily_game` reseeds
the generator from the date string on every call, so its result is a
pure function of the date and the category pool — two invocations with
the same date and unchanged pool agree whatever the ambient generator
state; the same holds for `generate_game` on a fresh (empty) cache. -/
theorem C1_create_daily_game_deterministic :
    (∀ (d : String) (db? : Option Db) (s₁ s₂ : Nat),
        create_daily_game d db? s₁ = create_daily_game d db? s₂)
    ∧ (∀ (d : String) (db? : Option Db) (s₁ s₂ : Nat),
        generate_game d db? ⟨none, none⟩ s₁ = generate_game d db? ⟨none, none⟩ s₂) :=
  ⟨fun _ _ _ _ => rfl, fun _ _ _ _ => rfl⟩

/-- C1 counterexample: two same-day invocations of
`game_logic.ConnectionsGame.generate_game` against the unchanged pool
both succeed but return the 16 words in different orders — the second
call reuses the cached categories without reseeding, so its shuffle
depends on the generator state left behind by the first call. -/
theorem C1_counterexample_generate_game :
    wordsOfRun glRun1 ≠ wordsOfRun glRun2
    ∧ glRun1.isOk = true ∧ glRun2.isOk = true := by
  refine ⟨by decide, by decide, by decide⟩

/-- C2 counterexample: the `main.check_selection` endpoint performs no
selection-count validation.  A 5-entry guess repeating «Яблоко» — whose
length is not 4 — is reported as a valid match of «Фрукты» and appended
to `found_categories`, instead of yielding the wrong-selection-count
message with progress unchanged. -/
theorem C2_counterexample_no_length_validation :
    (["Яблоко", "Яблоко", "Апельсин", "Банан", "Виноград"] : List String).length ≠ 4
    ∧ check_selection generate_fallback_categories [] 0
        ["Яблоко", "Яблоко", "Апельсин", "Банан", "Виноград"]
      = (MainResult.valid "Фрукты" 3 false,
         [⟨"Фрукты", ["Яблоко", "Яблоко", "Апельсин", "Банан", "Виноград"]⟩], 0) :=
  ⟨by decide, by decide⟩

/-- C2 (amended): the length-4 validation exists only in
`ConnectionsGame.check_selection`, which reports the
wrong-selection-count message for any guess of the wrong length (that
evaluator touches no progress at all); the `main.check_selection`
endpoint has no such validation, but in both evaluators a match
requires exact set equality with a category's words, so a guess whose
word set is a strict superset or subset of every category's word set is
never reported as a match. -/
theorem C2_amended_length_validation :
    (∀ (guess : List String) (cats : List Category), guess.length ≠ 4 →
        ConnectionsGame_check_selection guess cats = GLResult.invalid "Выберите ровно 4 слова")
    ∧ (∀ (cats : List Category) (found : List FoundCat) (m : Nat) (guess : List String)
        (name : String) (rem : Int) (gc : Bool),
        (check_selection cats found m guess).1 = MainResult.valid name rem gc →
        ∃ c ∈ cats, guess.toFinset = c.words.toFinset) := by
  constructor
  · intro guess cats h
    simp [ConnectionsGame_check_selection, h]
  · intro cats found m guess name rem gc h
    rcases hf : cats.find? (fun c => decide (guess.toFinset = c.words.toFinset)) with _ | c
    · have hbad : (check_selection cats found m guess).1
          = MainResult.invalid "Эти слова не образуют категорию" (m + 1) := by
        unfold check_selection
        rw [hf]
      rw [hbad] at h
      exact absurd h (by simp)
    · exact ⟨c, List.mem_of_find?_eq_some hf, by simpa using List.find?_some hf⟩

/-- C2 witness: a 1-word guess is rejected with the
wrong-selection-count message by `ConnectionsGame.check_selection`, and
a valid answer of the endpoint evaluator at a concrete input always
comes from a set-equal category. -/
theorem C2_amended_length_validation_witness :
    ConnectionsGame_check_selection ["Яблоко"] generate_fallback_categories
      = GLResult.invalid "Выберите ровно 4 слова"
    ∧ ∃ c ∈ generate_fallback_categories,
        (["Виноград", "Банан", "Апельсин", "Яблоко"] : List String).toFinset
          = c.words.toFinset :=
  ⟨C2_amended_length_validation.1 ["Яблоко"] generate_fallback_categories (by decide),
   C2_amended_length_validation.2 generate_fallback_categories [] 0
     ["Виноград", "Банан", "Апельсин", "Яблоко"] "Фрукты" 3 false (by decide)⟩

/-- C3 counterexample: matching is case-sensitive.  The all-lowercase
guess equals the `Fruits` category word-for-word up to letter case
(their lowercased word sets coincide and the category is in the
puzzle), yet the endpoint reports no match and charges a mistake. -/
theorem C3_counterexample_case_sensitive :
    ((["apple", "banana", "orange", "grape"] : List String).map lowerStr).toFinset
      = ((["Apple", "Banana", "Orange", "Grape"] : List String).map lowerStr).toFinset
    ∧ (⟨"Fruits", ["Apple", "Banana", "Orange", "Grape"]⟩ : Category) ∈ englishCats
    ∧ check_selection englishCats [] 0 ["apple", "banana", "orange", "grape"]
      = (MainResult.invalid "Эти слова не образуют категорию" 1, [], 1) :=
  ⟨by decide, by decide, by decide⟩

/-- C3 (amended): a guess matches a category exactly when the two are
equal as sets of literal strings — order-insensitive but
case-sensitive; and when a match is stored, the recorded entry carries
the literal submitted strings in their submitted casing and order, not
the canonical category word list. -/
theorem C3_amended_matching_semantics :
    (∀ (cats : List Category) (found : List FoundCat) (m : Nat) (guess : List String)
        (name : String) (rem : Int) (gc : Bool),
        (check_selection cats found m guess).1 = MainResult.valid name rem gc →
        ∃ c ∈ cats, c.name = name ∧ guess.toFinset = c.words.toFinset)
    ∧ (∀ (cats : List Category) (found : List FoundCat) (m : Nat) (guess : List String)
        (c : Category), c ∈ cats → guess.toFinset = c.words.toFinset →
        ∃ name rem gc, (check_selection cats found m guess).1 = MainResult.valid name rem gc)
    ∧ (∀ (cats : List Category) (found : List FoundCat) (m : Nat) (guess : List String)
        (c : Category),
        cats.find? (fun c' => decide (guess.toFinset = c'.words.toFinset)) = some c →
        found.any (fun f => f.name == c.name) = false →
        (check_selection cats found m guess).2.1 = found ++ [⟨c.name, guess⟩]) := by
  refine ⟨?_, ?_, ?_⟩
  · intro cats found m guess name rem gc h
    rcases hf : cats.find? (fun c => decide (guess.toFinset = c.words.toFinset)) with _ | c
    · have hbad : (check_selection cats found m guess).1
          = MainResult.invalid "Эти слова не образуют категорию" (m + 1) := by
        unfold check_selection
        rw [hf]
      rw [hbad] at h
      exact absurd h (by simp)
    · have hgood : ∃ rem' gc', (check_selection cats found m guess).1
          = MainResult.valid c.name rem' gc' := by
        unfold check_selection
        rw [hf]
        exact ⟨_, _, rfl⟩
      obtain ⟨rem', gc', hv⟩ := hgood
      rw [hv] at h
      obtain ⟨hn, -, -⟩ := MainResult.valid.inj h
      exact ⟨c, List.mem_of_find?_eq_some hf, hn, by simpa using List.find?_some hf⟩
  · intro cats found m guess c hc hset
    rcases hf : cats.find? (fun c' => decide (guess.toFinset = c'.words.toFinset)) with _ | c'
    · exact absurd hset (by simpa using (List.find?_eq_none.mp hf) c hc)
    · have hgood : ∃ rem' gc', (check_selection cats found m guess).1
          = MainResult.valid c'.name rem' gc' := by
        unfold check_selection
        rw [hf]
        exact ⟨_, _, rfl⟩
      obtain ⟨rem', gc', hv⟩ := hgood
      exact ⟨c'.name, rem', gc', hv⟩
  · intro cats found m guess c hf ha
    unfold check_selection
    rw [hf]
    simp [ha]

/-- C3 witness: an order-reversed, case-exact guess of the `Fruits`
words matches, the appended entry stores the guess verbatim, and every
valid answer at this input comes from a set-equal category. -/
theorem C3_amended_matching_semantics_witness :
    (∃ c ∈ englishCats, c.name = "Fruits"
        ∧ (["Grape", "Orange", "Banana", "Apple"] : List String).toFinset = c.words.toFinset)
    ∧ (∃ name rem gc, (check_selection englishCats [] 0
        ["Grape", "Orange", "Banana", "Apple"]).1 = MainResult.valid name rem gc)
    ∧ (check_selection englishCats [] 0 ["Grape", "Orange", "Banana", "Apple"]).2.1
        = [] ++ [⟨"Fruits", ["Grape", "Orange", "Banana", "Apple"]⟩] :=
  ⟨C3_amended_matching_semantics.1 englishCats [] 0 ["Grape", "Orange", "Banana", "Apple"]
      "Fruits" 3 false (by decide),
   C3_amended_matching_semantics.2.1 englishCats [] 0 ["Grape", "Orange", "Banana", "Apple"]
      ⟨"Fruits", ["Apple", "Banana", "Orange", "Grape"]⟩ (by decide) (by decide),
   C3_amended_matching_semantics.2.2 englishCats [] 0 ["Grape", "Orange", "Banana", "Apple"]
      ⟨"Fruits", ["Apple", "Banana", "Orange", "Grape"]⟩ (by decide) (by decide)⟩

theorem length_filterMap_ite (l : List α) (p : α → Prop) [DecidablePred p] (g : α → β) :
    (l.filterMap fun c => if p c then some (g c) else none).length
      = l.countP (fun c => decide (p c)) := by
  induction l with
  | nil => rfl
  | cons a l ih =>
    by_cases h : p a <;>
      simp [List.filterMap_cons, h, List.countP_cons, ih]

/-- C4 counterexample: in `daily_game.py` the category fetch is not
wrapped in any exception handler, so a data-source failure propagates
out of `DailyGameGenerator._generate_deterministic_categories` as an
error instead of producing the fallback puzzle. -/
theorem C4_counterexample_daily_fetch_error :
    generate_deterministic_categories "2024-01-15" none
      = Except.error "database error" := rfl

/-- C4 (amended): whenever the pool yields fewer than 4 categories with
at least 4 words each, both builders substitute their fixed hardcoded
fallback of exactly 4 categories × 4 words; in `main.py` a failed fetch
is caught by `get_categories_from_db` and likewise yields the fallback
(never an error), while in `daily_game.py` only the insufficient-pool
conditions fall back — a failed fetch there propagates as an error. -/
theorem C4_amended_fallback_policy :
    (get_categories_from_db none = generate_fallback_categories)
    ∧ (∀ db : Db, (filteredCats db).length < 4 →
        dailyCategoryPool (some db) = generate_fallback_categories)
    ∧ (dailyCategoryPool none = generate_fallback_categories)
    ∧ (generate_fallback_categories.length = 4
        ∧ ∀ c ∈ generate_fallback_categories, c.words.length = 4)
    ∧ (∀ (d : String) (db : Db), db.cats.length < 4 →
        generate_deterministic_categories d (some db)
          = Except.ok (fallback_categories_daily, seedMd5 d))
    ∧ (∀ (d : String) (db : Db), 4 ≤ db.cats.length →
        db.cats.countP
            (fun c => decide (4 ≤ (db.words_by_category c.category_id).length)) < 4 →
        generate_deterministic_categories d (some db)
          = Except.ok (fallback_categories_daily, (sample db.cats 4 (seedMd5 d)).2))
    ∧ (fallback_categories_daily.length = 4
        ∧ ∀ c ∈ fallback_categories_daily, c.words.length = 4) := by
  refine ⟨rfl, ?_, rfl, by decide, ?_, ?_, by decide⟩
  · intro db h
    simp [dailyCategoryPool, get_categories_from_db, if_pos h]
  · intro d db h
    unfold generate_deterministic_categories
    simp only []
    rw [if_neg (by omega)]
  · intro d db h4 hcount
    unfold generate_deterministic_categories
    simp only []
    rw [if_pos h4]
    rw [if_neg ?_]
    have hlen : ((sample db.cats 4 (seedMd5 d)).1.filterMap fun c =>
        let ws := db.words_by_category c.category_id
        if 4 ≤ ws.length then some (⟨c.category_name, ws.take 4⟩ : Category) else none).length
        = (sample db.cats 4 (seedMd5 d)).1.countP
            (fun c => decide (4 ≤ (db.words_by_category c.category_id).length)) :=
      length_filterMap_ite _ _ _
    rw [hlen]
    have hle := List.Subperm.countP_le
      (fun c => decide (4 ≤ (db.words_by_category c.category_id).length))
      (sample_subperm 4 db.cats (seedMd5 d))
    omega

/-- C4 witness: an empty pool makes the endpoint builder use the
hardcoded fallback categories, and in the `DailyGameGenerator` both the
too-few-rows store and the all-thin-categories store produce the fixed
fallback list without error. -/
theorem C4_amended_fallback_policy_witness :
    dailyCategoryPool (some dbEmpty) = generate_fallback_categories
    ∧ generate_deterministic_categories "2024-01-15" (some dbEmpty)
        = Except.ok (fallback_categories_daily, seedMd5 "2024-01-15")
    ∧ generate_deterministic_categories "2024-01-15" (some thinDb)
        = Except.ok (fallback_categories_daily,
            (sample thinDb.cats 4 (seedMd5 "2024-01-15")).2) :=
  ⟨C4_amended_fallback_policy.2.1 dbEmpty (by decide),
   C4_amended_fallback_policy.2.2.2.2.1 "2024-01-15" dbEmpty (by decide),
   C4_amended_fallback_policy.2.2.2.2.2.1 "2024-01-15" thinDb (by decide) (by decide)⟩

/-- C5 counterexample: decode is not total.  A cookie that parses as
valid JSON of non-object shape (the number `5`) makes
`main.get_user_progress` raise an `AttributeError`, and an object token
whose `found_categories` value is a number makes the `len(...)` call in
the logging line raise a `TypeError` — only `json.JSONDecodeError` and
`KeyError` are caught — instead of returning the empty-progress
default. -/
theorem C5_counterexample_non_object_token :
    get_user_progress (some (some (Json.num 5))) = Except.error "AttributeError"
    ∧ get_user_progress (some (some (Json.obj [("found_categories", Json.num 5)])))
        = Except.error "TypeError" :=
  ⟨rfl, rfl⟩

/-- C5 (amended): `main.get_user_progress` returns the empty-progress
default when the cookie is absent or is not syntactically valid JSON,
and a parsed object whose `found_categories` value is sized (or
absent, defaulting to `[]`) flows through unchanged apart from a
missing `mistakes` field being set to 0; but a cookie parsing to a
non-object JSON value raises an uncaught `AttributeError`, a parsed
object whose `found_categories` value is a number, boolean or null
raises an uncaught `TypeError` from the `len()` call in the logging
line, and fields other than `mistakes` are never defaulted. -/
theorem C5_amended_decode_defaults :
    (get_user_progress none = Except.ok default_progress)
    ∧ (get_user_progress (some none) = Except.ok default_progress)
    ∧ (∀ fields : List (String × Json),
        pyHasLen ((fields.lookup "found_categories").getD (Json.arr [])) = true →
        dictContains fields "mistakes" = false →
        get_user_progress (some (some (Json.obj fields)))
          = Except.ok (fields ++ [("mistakes", Json.num 0)]))
    ∧ (∀ fields : List (String × Json),
        pyHasLen ((fields.lookup "found_categories").getD (Json.arr [])) = true →
        dictContains fields "mistakes" = true →
        get_user_progress (some (some (Json.obj fields))) = Except.ok fields)
    ∧ (∀ fields : List (String × Json),
        pyHasLen ((fields.lookup "found_categories").getD (Json.arr [])) = false →
        get_user_progress (some (some (Json.obj fields)))
          = Except.error "TypeError") := by
  refine ⟨rfl, rfl, ?_, ?_, ?_⟩
  · intro fields hsz h
    simp [get_user_progress, hsz, h]
  · intro fields hsz h
    simp [get_user_progress, hsz, h]
  · intro fields hsz
    simp [get_user_progress, hsz]

/-- C5 witness: an empty parsed object gains `mistakes = 0`, an object
already carrying `mistakes` flows through unchanged, and an object
carrying a null `found_categories` raises. -/
theorem C5_amended_decode_defaults_witness :
    get_user_progress (some (some (Json.obj []))) = Except.ok [("mistakes", Json.num 0)]
    ∧ get_user_progress (some (some (Json.obj [("mistakes", Json.num 3)])))
        = Except.ok [("mistakes", Json.num 3)]
    ∧ get_user_progress (some (some (Json.obj [("found_categories", Json.null)])))
        = Except.error "TypeError" :=
  ⟨C5_amended_decode_defaults.2.2.1 [] rfl rfl,
   C5_amended_decode_defaults.2.2.2.1 [("mistakes", Json.num 3)] rfl rfl,
   C5_amended_decode_defaults.2.2.2.2 [("found_categories", Json.null)] rfl⟩

/-- C6 (confirmed): replaying a guess that matches the category found
first by the scan, when an entry with that category's name is already
in `found_categories`, answers `valid` while leaving both the
`found_categories` list and the `mistakes` count unchanged — no
duplicate entry, no extra mistake. -/
theorem C6_idempotent_replay (cats : List Category) (found : List FoundCat) (m : Nat)
    (guess : List String) (c : Category)
    (hf : cats.find? (fun c' => decide (guess.toFinset = c'.words.toFinset)) = some c)
    (ha : found.any (fun f => f.name == c.name) = true) :
    (∃ rem gc, (check_selection cats found m guess).1 = MainResult.valid c.name rem gc)
    ∧ (check_selection cats found m guess).2.1 = found
    ∧ (check_selection cats found m guess).2.2 = m := by
  unfold check_selection
  rw [hf]
  simp only [ha, if_true]
  exact ⟨⟨_, _, rfl⟩, trivial, trivial⟩

/-- C6 witness: with `Fruits` already found, re-guessing its words in
another order is valid and changes nothing. -/
theorem C6_idempotent_replay_witness :
    (∃ rem gc, (check_selection englishCats
        [⟨"Fruits", ["Apple", "Banana", "Orange", "Grape"]⟩] 2
        ["Grape", "Apple", "Banana", "Orange"]).1 = MainResult.valid "Fruits" rem gc)
    ∧ (check_selection englishCats [⟨"Fruits", ["Apple", "Banana", "Orange", "Grape"]⟩] 2
        ["Grape", "Apple", "Banana", "Orange"]).2.1
        = [⟨"Fruits", ["Apple", "Banana", "Orange", "Grape"]⟩]
    ∧ (check_selection englishCats [⟨"Fruits", ["Apple", "Banana", "Orange", "Grape"]⟩] 2
        ["Grape", "Apple", "Banana", "Orange"]).2.2 = 2 :=
  C6_idempotent_replay englishCats [⟨"Fruits", ["Apple", "Banana", "Orange", "Grape"]⟩] 2
    ["Grape", "Apple", "Banana", "Orange"]
    ⟨"Fruits", ["Apple", "Banana", "Orange", "Grape"]⟩ (by decide) (by decide)

/-- C7 (confirmed): a 4-word guess whose word set equals no category's
word set yields the no-match `invalid` answer carrying `mistakes + 1`,
with `found_categories` unchanged and the stored mistake count
incremented by exactly 1. -/
theorem C7_mistake_accumulation (cats : List Category) (found : List FoundCat) (m : Nat)
    (guess : List String) (_hlen : guess.length = 4)
    (hno : ∀ c ∈ cats, guess.toFinset ≠ c.words.toFinset) :
    check_selection cats found m guess
      = (MainResult.invalid "Эти слова не образуют категорию" (m + 1), found, m + 1) := by
  have hf : cats.find? (fun c' => decide (guess.toFinset = c'.words.toFinset)) = none :=
    List.find?_eq_none.mpr (fun c hc => by simpa using hno c hc)
  unfold check_selection
  rw [hf]

/-- C7 witness: the spec's own example — `{Apple, Cat, Red, Train}`
matches no category, charging exactly one mistake. -/
theorem C7_mistake_accumulation_witness :
    check_selection englishCats [] 0 ["Apple", "Cat", "Red", "Train"]
      = (MainResult.invalid "Эти слова не образуют категорию" 1, [], 1) :=
  C7_mistake_accumulation englishCats [] 0 ["Apple", "Cat", "Red", "Train"]
    (by decide) (by decide)

/-- C10 (confirmed): the endpoint evaluator preserves pairwise-distinct
names in `found_categories` — an entry is appended only when its name
is absent — and it only ever extends the list and never decreases the
mistake count. -/
theorem C10_name_uniqueness_preserved (cats : List Category) (found : List FoundCat)
    (m : Nat) (guess : List String)
    (h : found.Pairwise (fun a b => a.name ≠ b.name)) :
    (check_selection cats found m guess).2.1.Pairwise (fun a b => a.name ≠ b.name)
    ∧ (∃ t, (check_selection cats found m guess).2.1 = found ++ t)
    ∧ m ≤ (check_selection cats found m guess).2.2 := by
  rcases hf : cats.find? (fun c' => decide (guess.toFinset = c'.words.toFinset)) with _ | c
  · unfold check_selection
    rw [hf]
    exact ⟨h, ⟨[], by simp⟩, Nat.le_succ m⟩
  · unfold check_selection
    rw [hf]
    by_cases ha : found.any (fun f => f.name == c.name) = true
    · simp only [ha, if_true]
      exact ⟨h, ⟨[], by simp⟩, Nat.le_refl m⟩
    · rw [Bool.not_eq_true] at ha
      simp only [ha, if_false]
      refine ⟨?_, ⟨[⟨c.name, guess⟩], rfl⟩, Nat.le_refl m⟩
      refine List.pairwise_append.mpr ⟨h, List.pairwise_singleton _ _, ?_⟩
      intro a hain b hb hname
      rcases List.mem_singleton.mp hb with rfl
      have : found.any (fun f => f.name == c.name) = true :=
        List.any_eq_true.mpr ⟨a, hain, by simpa using hname⟩
      simp [this] at ha

/-- C10 witness: a new match against a progress with two distinct names
appends a third distinct entry and keeps the mistake count. -/
theorem C10_name_uniqueness_preserved_witness :
    (check_selection englishCats
        [⟨"Fruits", ["Apple", "Banana", "Orange", "Grape"]⟩, ⟨"Pets", ["Dog", "Cat", "Bird", "Fish"]⟩]
        2 ["Red", "Blue", "Green", "Yellow"]).2.1.Pairwise (fun a b => a.name ≠ b.name)
    ∧ (∃ t, (check_selection englishCats
        [⟨"Fruits", ["Apple", "Banana", "Orange", "Grape"]⟩, ⟨"Pets", ["Dog", "Cat", "Bird", "Fish"]⟩]
        2 ["Red", "Blue", "Green", "Yellow"]).2.1
        = [⟨"Fruits", ["Apple", "Banana", "Orange", "Grape"]⟩, ⟨"Pets", ["Dog", "Cat", "Bird", "Fish"]⟩] ++ t)
    ∧ 2 ≤ (check_selection englishCats
        [⟨"Fruits", ["Apple", "Banana", "Orange", "Grape"]⟩, ⟨"Pets", ["Dog", "Cat", "Bird", "Fish"]⟩]
        2 ["Red", "Blue", "Green", "Yellow"]).2.2 :=
  C10_name_uniqueness_preserved englishCats
    [⟨"Fruits", ["Apple", "Banana", "Orange", "Grape"]⟩, ⟨"Pets", ["Dog", "Cat", "Bird", "Fish"]⟩]
    2 ["Red", "Blue", "Green", "Yellow"] (by decide)

theorem dailyCategoryPool_length (db? : Option Db) :
    4 ≤ (dailyCategoryPool db?).length := by
  unfold dailyCategoryPool
  by_cases h : (get_categories_from_db db?).length < 4
  · simp only [h, if_true]
    decide
  · simp only [h, if_false]
    omega

/-- C8 counterexample: disjointness is not enforced.  Building the
daily puzzle over a pool of 4 well-formed categories in which `A` and
`B` share the word `w` yields a puzzle whose categories are not
pairwise word-disjoint. -/
theorem C8_counterexample_overlapping_pool :
    ¬ ((create_daily_game "2024-01-15" (some overlapDb) 0).categories.Pairwise
        (fun c₁ c₂ => ∀ w ∈ c₁.words, w ∉ c₂.words)) := by decide

/-- C8 (amended): every built puzzle has exactly 4 categories and its
`words` field is exactly a permutation of the concatenation of those
categories' word lists; pairwise word-disjointness, however, is never
checked for database-sourced pools (see the counterexample) — it holds
for the hardcoded fallback category sets. -/
theorem C8_amended_word_invariant :
    (∀ (d : String) (db? : Option Db) (rng : Nat),
        (create_daily_game d db? rng).categories.length = 4
        ∧ (create_daily_game d db? rng).words.Perm
            (((create_daily_game d db? rng).categories.map Category.words).flatten))
    ∧ generate_fallback_categories.Pairwise (fun c₁ c₂ => ∀ w ∈ c₁.words, w ∉ c₂.words)
    ∧ fallback_categories_daily.Pairwise (fun c₁ c₂ => ∀ w ∈ c₁.words, w ∉ c₂.words) := by
  refine ⟨?_, by decide, by decide⟩
  intro d db? rng
  constructor
  · show (sample (dailyCategoryPool db?) 4 (seedOfString d)).1.length = 4
    rw [sample_length]
    have := dailyCategoryPool_length db?
    omega
  · exact shuffle_perm _ _

theorem strListOfJson_map (ws : List String) :
    strListOfJson (ws.map Json.str) = some ws := by
  induction ws with
  | nil => rfl
  | cons s ws ih => simp [strListOfJson, ih]

theorem foundOfJson_jsonOfFound (f : FoundCat) : foundOfJson (jsonOfFound f) = some f := by
  have h : foundOfJson (jsonOfFound f)
      = (strListOfJson (f.words.map Json.str)).map (fun l => ⟨f.name, l⟩) := rfl
  rw [h, strListOfJson_map]
  rfl

theorem foundListOfJson_map (fs : List FoundCat) :
    foundListOfJson (fs.map jsonOfFound) = some fs := by
  induction fs with
  | nil => rfl
  | cons f fs ih => simp [foundListOfJson, foundOfJson_jsonOfFound, ih]

/-- C9 (confirmed): decoding the cookie produced by
`main.set_user_progress` recovers the progress exactly: the parsed
dictionary is returned unchanged (the `mistakes` field is present, so
no defaulting occurs) and its `found_categories` and `game_date`
encodings read back to the original values. -/
theorem C9_roundtrip (found : List FoundCat) (game_date : Option String) (mistakes : Int)
    (_hlen : found.length ≤ 4) (_hm : 0 ≤ mistakes) :
    get_user_progress (some (some (set_user_progress found game_date mistakes)))
        = Except.ok (progress_fields found game_date mistakes)
    ∧ foundListOfJson (found.map jsonOfFound) = some found
    ∧ dateOfJson (jsonOfDate game_date) = some game_date := by
  refine ⟨?_, foundListOfJson_map found, ?_⟩
  · have hc : dictContains (progress_fields found game_date mistakes) "mistakes" = true := by
      simp [dictContains, progress_fields]
    have hsz : pyHasLen (((progress_fields found game_date mistakes).lookup
        "found_categories").getD (Json.arr [])) = true := rfl
    simp [get_user_progress, set_user_progress, hsz, hc]
  · cases game_date <;> rfl

/-- C9 witness: a concrete progress with one found category and 7
mistakes round-trips through the cookie codec. -/
theorem C9_roundtrip_witness :
    get_user_progress (some (some (set_user_progress
        [⟨"Фрукты", ["Яблоко", "Апельсин", "Банан", "Виноград"]⟩] (some "2024-01-15") 7)))
      = Except.ok (progress_fields
        [⟨"Фрукты", ["Яблоко", "Апельсин", "Банан", "Виноград"]⟩] (some "2024-01-15") 7)
    ∧ foundListOfJson (([⟨"Фрукты", ["Яблоко", "Апельсин", "Банан", "Виноград"]⟩]
        : List FoundCat).map jsonOfFound)
      = some [⟨"Фрукты", ["Яблоко", "Апельсин", "Банан", "Виноград"]⟩]
    ∧ dateOfJson (jsonOfDate (some "2024-01-15")) = some (some "2024-01-15") :=
  C9_roundtrip [⟨"Фрукты", ["Яблоко", "Апельсин", "Банан", "Виноград"]⟩]
    (some "2024-01-15") 7 (by decide) (by decide)
